import Mathlib

/-!
# Verification of the asset-object state model (graphene/chain/asset_object.hpp)

Shallow embedding of the asset data model of the chain library: the
`asset_object` record with its option bitsets and helper predicates, the
`asset_bitasset_data_object` record holding the price-feed map, the median
aggregation, the feed-expiration predicates, the settlement state and the
force-settlement throttle, together with the symbol-keyed object store and
the decimal amount formatting and parsing helpers.

Machine integers are modelled as `Nat`/`Int`; `fc::time_point_sec` is a
32-bit count of seconds, so its addition wraps modulo `2 ^ 32`. Strings are
modelled as `List Char`. Functions that are only declared in the header
(their translation unit is absent) are modelled from the specification and
say so in their doc comment.
-/

namespace AssetModel

/-- `fc::time_point_sec` holds a `uint32_t` seconds count; adding a
`uint32_t` offset wraps modulo `2 ^ 32`. -/
def timeAdd (t : Nat) (s : Nat) : Nat := (t + s) % 2 ^ 32

/-- The protocol `asset` value type: an amount of a particular asset. -/
structure Asset where
  amount : Int
  asset_id : Nat
deriving DecidableEq

/-- The protocol `price` type: a ratio of two asset amounts. -/
structure Price where
  base : Asset
  quote : Asset
deriving DecidableEq

/-- The default-constructed `price()`: both sides are the zero amount of
asset 0. -/
def Price.null : Price := ⟨⟨0, 0⟩, ⟨0, 0⟩⟩

/-- `price::is_null()`: equality with the default-constructed price. -/
def Price.is_null (p : Price) : Bool := decide (p = Price.null)

/-- `asset_issuer_permission_flags::charge_market_fee` (0x01). -/
def charge_market_fee : Nat := 1
/-- `asset_issuer_permission_flags::white_list` (0x02). -/
def white_list : Nat := 2
/-- `asset_issuer_permission_flags::override_authority` (0x04). -/
def override_authority : Nat := 4
/-- `asset_issuer_permission_flags::transfer_restricted` (0x08). -/
def transfer_restricted : Nat := 8
/-- `asset_issuer_permission_flags::disable_force_settle` (0x10). -/
def disable_force_settle : Nat := 16
/-- `asset_issuer_permission_flags::global_settle` (0x20). -/
def global_settle : Nat := 32
/-- `asset_issuer_permission_flags::disable_confidential` (0x40). -/
def disable_confidential : Nat := 64

/-- The fields of `asset_options` the embedded operations consult:
the `flags` bitset, the `issuer_permissions` bitset and `max_supply`. -/
structure AssetOptions where
  max_supply : Int
  flags : Nat
  issuer_permissions : Nat
deriving DecidableEq

/-- Errors surfaced by the operations of this core (the error taxonomy of
the specification); an `FC_ASSERT` failure is the corresponding typed
error. -/
inductive AssetError where
  | DuplicateSymbol
  | SupplyExceedsMax
  | InvalidAssetOptions
  | AlreadySettled
  | PriceExceedsCap
  | ExceedsSettlementBudget
  | InvalidAmountFormat
  | InsufficientSettlementFund
  | AssetIdMismatch
deriving DecidableEq

/-- One price observation, `price_feed`. Its translation unit is absent
from the source tree; the aggregation treats it as a tuple of
independently-medianed coordinates ("median of max collateralization
ratios, median of settlement prices, etc., each computed independently"),
so it is modelled as a record of scalar coordinates. -/
structure PriceFeed where
  settlement_price : Nat
  maintenance_collateral : Nat
  core_exchange_rate : Nat
deriving DecidableEq

/-- The default-constructed (null) `price_feed`. -/
def PriceFeed.null : PriceFeed := ⟨0, 0, 0⟩

/-- The fields of `bitasset_options` the embedded operations consult. -/
structure BitassetOptions where
  feed_lifetime_sec : Nat
  maximum_force_settlement_volume : Nat
deriving DecidableEq

/-- `asset_bitasset_data_object`: the bitasset-only state. `feeds` is the
flat map from publisher account to (publication time, observation),
modelled as an association list. -/
structure BitassetData where
  id : Nat
  options : BitassetOptions
  feeds : List (Nat × (Nat × PriceFeed))
  current_feed : PriceFeed
  current_feed_publication_time : Nat
  is_prediction_market : Bool
  force_settled_volume : Int
  settlement_price : Price
  settlement_fund : Int
deriving DecidableEq

/-- `has_settlement()`: true iff there has been a black swan, i.e. the
settlement price is non-null. -/
def BitassetData.has_settlement (b : BitassetData) : Bool :=
  !b.settlement_price.is_null

/-- `feed_expiration_time()`: `current_feed_publication_time +
options.feed_lifetime_sec` in wrapping 32-bit seconds. -/
def BitassetData.feed_expiration_time (b : BitassetData) : Nat :=
  timeAdd b.current_feed_publication_time b.options.feed_lifetime_sec

/-- `feed_is_expired_before_hardfork_615(current_time)`: returns
`feed_expiration_time() >= current_time` (the legacy, inverted
comparison). -/
def BitassetData.feed_is_expired_before_hardfork_615
    (b : BitassetData) (current_time : Nat) : Bool :=
  decide (b.feed_expiration_time ≥ current_time)

/-- `feed_is_expired(current_time)`: returns
`feed_expiration_time() <= current_time` (current semantics). -/
def BitassetData.feed_is_expired (b : BitassetData) (current_time : Nat) : Bool :=
  decide (b.feed_expiration_time ≤ current_time)

/-- `asset_object`: the static asset record. -/
structure AssetObject where
  id : Nat
  symbol : List Char
  precision : Nat
  issuer : Nat
  options : AssetOptions
  dynamic_asset_data_id : Nat
  bitasset_data_id : Option Nat
deriving DecidableEq

/-- `is_market_issued()`: the bitasset-data reference is present. -/
def AssetObject.is_market_issued (a : AssetObject) : Bool :=
  a.bitasset_data_id.isSome

/-- `can_force_settle()`: `!(options.flags & disable_force_settle)`. -/
def AssetObject.can_force_settle (a : AssetObject) : Bool :=
  !(a.options.flags &&& disable_force_settle != 0)

/-- `can_global_settle()`: `options.issuer_permissions & global_settle`. -/
def AssetObject.can_global_settle (a : AssetObject) : Bool :=
  a.options.issuer_permissions &&& global_settle != 0

/-- `charges_market_fees()`: `options.flags & charge_market_fee`. -/
def AssetObject.charges_market_fees (a : AssetObject) : Bool :=
  a.options.flags &&& charge_market_fee != 0

/-- `is_transfer_restricted()`: `options.flags & transfer_restricted`. -/
def AssetObject.is_transfer_restricted (a : AssetObject) : Bool :=
  a.options.flags &&& transfer_restricted != 0

/-- `validate()`: for a non-market-issued asset both bitsets must have the
`disable_force_settle` and `global_settle` bits clear; each failing
`FC_ASSERT` surfaces as `InvalidAssetOptions`. -/
def AssetObject.validate (a : AssetObject) : Except AssetError Unit :=
  if !a.is_market_issued then
    if a.options.flags &&& disable_force_settle != 0 ||
       a.options.flags &&& global_settle != 0 then
      .error .InvalidAssetOptions
    else if a.options.issuer_permissions &&& disable_force_settle != 0 ||
            a.options.issuer_permissions &&& global_settle != 0 then
      .error .InvalidAssetOptions
    else
      .ok ()
  else
    .ok ()

/-! ## Median feed aggregation -/

/-- The lower median of a list of scalars: the element at position
`(length - 1) / 2` of a sorted arrangement, so an even count takes the
lower of the two middle values. -/
def medianLow (l : List Nat) : Nat :=
  (List.insertionSort (· ≤ ·) l).getD ((l.length - 1) / 2) 0

/-- Modelled from the spec: the subset of `feeds` a `recompute` includes —
the publisher is in the externally supplied authorized set and the entry
is not stale by `options.feed_lifetime_sec`. The aggregation body
(`update_median_feeds` in the translation unit) is absent from the source
tree. -/
def includedFeeds (authorized : List Nat) (now : Nat) (b : BitassetData) :
    List (Nat × (Nat × PriceFeed)) :=
  b.feeds.filter
    (fun f => authorized.contains f.1 &&
      decide (now ≤ timeAdd f.2.1 b.options.feed_lifetime_sec))

/-- Modelled from the spec: `update_median_feeds(current_time)` is only
declared in the header; its translation unit is absent. It selects the
authorized, non-stale feeds, computes `current_feed` as the
coordinate-wise lower median of the selected observations, and sets
`current_feed_publication_time` to the minimum publication timestamp
among the included feeds (with the null feed and `now` when nothing is
included). -/
def BitassetData.update_median_feeds (b : BitassetData) (authorized : List Nat)
    (now : Nat) : BitassetData :=
  if (includedFeeds authorized now b).isEmpty then
    { b with current_feed := PriceFeed.null, current_feed_publication_time := now }
  else
    { b with
      current_feed :=
        { settlement_price :=
            medianLow ((includedFeeds authorized now b).map
              (fun f => f.2.2.settlement_price))
          maintenance_collateral :=
            medianLow ((includedFeeds authorized now b).map
              (fun f => f.2.2.maintenance_collateral))
          core_exchange_rate :=
            medianLow ((includedFeeds authorized now b).map
              (fun f => f.2.2.core_exchange_rate)) }
      current_feed_publication_time :=
        (((includedFeeds authorized now b).map (fun f => f.2.1)).min?).getD now }

/-- The claim-level characterisation of the lower median: `m` sits at the
lower-middle position of a sorted arrangement of `l`. -/
def isLowerMedian (l : List Nat) (m : Nat) : Prop :=
  ∃ s : List Nat, List.Sorted (· ≤ ·) s ∧ s.Perm l ∧
    s.get? ((l.length - 1) / 2) = some m

/-- `publish_feed(publisher, price, now)` upsert on the feeds flat map:
one entry per publisher, the most recent observation replaces the prior
one. -/
def upsertFeed (feeds : List (Nat × (Nat × PriceFeed))) (pub : Nat)
    (v : Nat × PriceFeed) : List (Nat × (Nat × PriceFeed)) :=
  match feeds with
  | [] => [(pub, v)]
  | f :: rest => if f.1 = pub then (pub, v) :: rest else f :: upsertFeed rest pub v

/-! ## Settlement state machine and throttle -/

/-- Modelled from the spec: `max_force_settlement_volume(current_supply)`
is only declared in the header; its translation unit is absent. The cap
is the configured maximum settlement percentage applied to the supply as
a fixed-point percentage (`GRAPHENE_100_PERCENT = 10000`), rounded
down. -/
def BitassetData.max_force_settlement_volume (b : BitassetData)
    (current_supply : Int) : Int :=
  current_supply * (b.options.maximum_force_settlement_volume : Int) / 10000

/-- A prediction-market settlement price above 1-to-1 (spec: "must satisfy
price ≤ 1:1 for a prediction-market asset"). -/
def priceExceedsCap (p : Price) : Bool :=
  decide (p.quote.amount < p.base.amount)

/-- The operations that touch a bitasset's feed and settlement state. -/
inductive BitassetOp where
  | publish_feed (publisher : Nat) (now : Nat) (f : PriceFeed)
  | recompute (authorized : List Nat) (now : Nat)
  | do_global_settle (p : Price) (fund : Int)
  | force_settle (amount : Int) (current_supply : Int)
  | reset_force_settled_volume
deriving DecidableEq

/-- Modelled from the spec: the transition function of the settlement
state machine and throttle; the evaluators applying these operations are
outside the source tree. After `GlobalSettled` any `publish_feed` or
`recompute` is rejected with `AlreadySettled`; a force settlement while
`Active` is gated by the per-interval volume cap and rejected whole with
`ExceedsSettlementBudget` when it would push `force_settled_volume` above
the cap; once settled, force settlement executes against
`settlement_fund`. -/
def applyBitassetOp (b : BitassetData) :
    BitassetOp → Except AssetError BitassetData
  | .publish_feed pub now f =>
      if b.has_settlement then .error .AlreadySettled
      else .ok { b with feeds := upsertFeed b.feeds pub (now, f) }
  | .recompute authorized now =>
      if b.has_settlement then .error .AlreadySettled
      else .ok (b.update_median_feeds authorized now)
  | .do_global_settle p fund =>
      if b.has_settlement then .error .AlreadySettled
      else if b.is_prediction_market && priceExceedsCap p then
        .error .PriceExceedsCap
      else .ok { b with settlement_price := p, settlement_fund := fund }
  | .force_settle x current_supply =>
      if b.has_settlement then
        if b.settlement_fund < x then .error .InsufficientSettlementFund
        else .ok { b with settlement_fund := b.settlement_fund - x }
      else
        if b.max_force_settlement_volume current_supply <
           b.force_settled_volume + x then
          .error .ExceedsSettlementBudget
        else .ok { b with force_settled_volume := b.force_settled_volume + x }
  | .reset_force_settled_volume =>
      .ok { b with force_settled_volume := 0 }

/-! ## Symbol-keyed object store -/

/-- Modelled from the spec: `is_valid_symbol` is only declared in the
header ("it simply checks whether the symbol would be valid"); its
translation unit is absent. A ticker symbol is 3 to 16 characters of
uppercase letters, digits or at most one dot, starting and ending with an
uppercase letter. -/
def is_valid_symbol (s : List Char) : Bool :=
  decide (3 ≤ s.length) && decide (s.length ≤ 16) &&
  (match s.head? with | some c => c.isUpper | none => false) &&
  (match s.getLast? with | some c => c.isUpper | none => false) &&
  s.all (fun c => c.isUpper || c.isDigit || c = '.') &&
  decide ((s.filter (fun c => c = '.')).length ≤ 1)

/-- The `asset_index` store keyed by the `ordered_unique` `by_symbol`
index: an insertion whose symbol collides with an existing record fails
with `DuplicateSymbol` and leaves the store unchanged; otherwise the
record is appended. -/
def insertAsset (store : List AssetObject) (a : AssetObject) :
    Except AssetError (List AssetObject) :=
  if store.any (fun b => b.symbol = a.symbol) then .error .DuplicateSymbol
  else .ok (store ++ [a])

/-! ## Concrete records used as witnesses -/

/-- A concrete non-market-issued asset whose `flags` carry
`disable_force_settle`: used to exercise `validate`. -/
def uiaBadFlags : AssetObject :=
  { id := 7
    symbol := ['U', 'I', 'A']
    precision := 5
    issuer := 1
    options := { max_supply := 1000000, flags := disable_force_settle,
                 issuer_permissions := 0 }
    dynamic_asset_data_id := 0
    bitasset_data_id := none }

/-- A concrete bitasset-data record with `is_prediction_market` set. -/
def pmBitasset : BitassetData :=
  { id := 3
    options := { feed_lifetime_sec := 86400, maximum_force_settlement_volume := 2000 }
    feeds := []
    current_feed := PriceFeed.null
    current_feed_publication_time := 0
    is_prediction_market := true
    force_settled_volume := 0
    settlement_price := Price.null
    settlement_fund := 0 }

/-- A concrete market-issued asset referring to `pmBitasset`, with no
flag bits set. -/
def pmAsset : AssetObject :=
  { id := 4
    symbol := ['P', 'R', 'E', 'D']
    precision := 4
    issuer := 1
    options := { max_supply := 1000000, flags := 0, issuer_permissions := global_settle }
    dynamic_asset_data_id := 1
    bitasset_data_id := some 3 }

/-- A concrete non-market-issued asset with precision 2 and symbol
"USD": used to exercise the amount formatting round trip. -/
def usd2 : AssetObject :=
  { id := 9
    symbol := ['U', 'S', 'D']
    precision := 2
    issuer := 1
    options := { max_supply := 1000000000, flags := 0, issuer_permissions := 0 }
    dynamic_asset_data_id := 2
    bitasset_data_id := none }

/-- A price observation whose coordinates all equal `v`. -/
def uniformFeed (v : Nat) : PriceFeed := ⟨v, v, v⟩

/-- A bitasset holding three feeds A:10, B:20, C:30 (published at times
10, 20, 30), none stale at time 50 under a lifetime of 100 seconds. -/
def exampleBitasset3 : BitassetData :=
  { id := 5
    options := { feed_lifetime_sec := 100, maximum_force_settlement_volume := 1000 }
    feeds := [(1, (10, uniformFeed 10)), (2, (20, uniformFeed 20)),
              (3, (30, uniformFeed 30))]
    current_feed := PriceFeed.null
    current_feed_publication_time := 0
    is_prediction_market := false
    force_settled_volume := 0
    settlement_price := Price.null
    settlement_fund := 0 }

/-- The same bitasset with only the two feeds A:10, B:20. -/
def exampleBitasset2 : BitassetData :=
  { exampleBitasset3 with
    id := 6
    feeds := [(1, (10, uniformFeed 10)), (2, (20, uniformFeed 20))] }

/-- A settled bitasset: `settlement_price` is non-null. -/
def settledBitasset : BitassetData :=
  { exampleBitasset3 with
    id := 8
    settlement_price := ⟨⟨1000, 5⟩, ⟨2000, 0⟩⟩
    settlement_fund := 2000 }

/-! ## Decimal amount formatting and parsing -/

/-- The character of a decimal digit `d < 10`. -/
def digitChar (d : Nat) : Char := Char.ofNat (48 + d)

/-- Decimal rendering of a natural number, most significant digit first. -/
def natChars (n : Nat) : List Char :=
  if n = 0 then ['0'] else (Nat.digits 10 n).reverse.map digitChar

/-- Numeric value of a digit character. -/
def charVal (c : Char) : Nat := c.toNat - 48

/-- Parse a non-empty run of decimal digit characters, most significant
digit first; any other input is malformed. -/
def parseNat (cs : List Char) : Option Nat :=
  if cs ≠ [] ∧ cs.all Char.isDigit then
    some (cs.foldl (fun a c => a * 10 + charVal c) 0)
  else none

/-- Left-pad a digit run with zeros to length `p`. -/
def padZeros (p : Nat) (cs : List Char) : List Char :=
  List.replicate (p - cs.length) '0' ++ cs

/-- Modelled from the spec: `amount_to_string(share_type)` is only declared
in the header ("Convert an asset to a textual representation, i.e.
\"123.45\""); its translation unit is absent. The amount is a count of
satoshis at the asset's `precision`: format
`amount / 10 ^ precision`, then a decimal point and the fractional part
when `precision` is positive, with a leading minus sign for a negative
amount. -/
def AssetObject.amount_to_string (a : AssetObject) (amount : Int) : List Char :=
  let s := 10 ^ a.precision
  let n := amount.natAbs
  let sign : List Char := if amount < 0 then ['-'] else []
  if a.precision = 0 then sign ++ natChars n
  else sign ++ natChars (n / s) ++ '.' :: padZeros a.precision (natChars (n % s))

/-- `amount_to_pretty_string(share_type)`:
`amount_to_string(amount) + " " + symbol`. -/
def AssetObject.amount_to_pretty_string (a : AssetObject) (amount : Int) : List Char :=
  a.amount_to_string amount ++ ' ' :: a.symbol

/-- Split a character run at the first decimal point, when present. -/
def splitDot : List Char → List Char × Option (List Char)
  | [] => ([], none)
  | c :: cs =>
    if c = '.' then ([], some cs)
    else
      let r := splitDot cs
      (c :: r.1, r.2)

/-- Strip an optional leading minus sign, reporting whether one was
present. -/
def stripSign (s : List Char) : Bool × List Char :=
  match s with
  | [] => (false, [])
  | c :: r => if c = '-' then (true, r) else (false, c :: r)

/-- Negate the parsed magnitude when a leading minus sign was present. -/
def applySign (neg : Bool) (v : Nat) : Int :=
  cond neg (-(v : Int)) (v : Int)

/-- Modelled from the spec: `amount_from_string` is only declared in the
header ("The string may have a decimal and/or a negative sign"); its
translation unit is absent. Accepts an optional leading minus sign and a
single optional decimal point with at most `precision` fractional digits;
any malformed input signals `InvalidAmountFormat`. The value is the
satoshi count `lhs * 10 ^ precision + rhs`, with the fractional digits
scaled up when fewer than `precision` of them are given. -/
def AssetObject.amount_from_string (a : AssetObject) (s : List Char) :
    Except AssetError Int :=
  match (splitDot (stripSign s).2).2 with
  | none =>
      match parseNat (splitDot (stripSign s).2).1 with
      | some n => .ok (applySign (stripSign s).1 (n * 10 ^ a.precision))
      | none => .error .InvalidAmountFormat
  | some rhs =>
      if rhs.length ≤ a.precision then
        match parseNat (splitDot (stripSign s).2).1, parseNat rhs with
        | some n, some r =>
            .ok (applySign (stripSign s).1
              (n * 10 ^ a.precision + r * 10 ^ (a.precision - rhs.length)))
        | _, _ => .error .InvalidAmountFormat
      else .error .InvalidAmountFormat

/-- The `asset`-typed overload `amount_to_string(const asset&)`:
`FC_ASSERT(amount.asset_id == id)` then delegate to the `share_type`
overload on `amount.amount`. -/
def AssetObject.amount_to_string_of_asset (ao : AssetObject) (a : Asset) :
    Except AssetError (List Char) :=
  if a.asset_id = ao.id then .ok (ao.amount_to_string a.amount)
  else .error .AssetIdMismatch

/-- The `asset`-typed overload `amount_to_pretty_string(const asset&)`:
`FC_ASSERT(amount.asset_id == id)` then delegate to the `share_type`
overload on `amount.amount`. -/
def AssetObject.amount_to_pretty_string_of_asset (ao : AssetObject) (a : Asset) :
    Except AssetError (List Char) :=
  if a.asset_id = ao.id then .ok (ao.amount_to_pretty_string a.amount)
  else .error .AssetIdMismatch

end AssetModel

namespace AssetModel

/-! ## Theorems for the inline header code -/

/-- Claim C3: `feed_expiration_time()` equals
`current_feed_publication_time + options.feed_lifetime_sec` (in the
wrapping 32-bit seconds arithmetic of `fc::time_point_sec`); the current
predicate `feed_is_expired(now)` holds exactly when `now` is at or past
the expiration time, and the legacy predicate
`feed_is_expired_before_hardfork_615(now)` holds exactly when `now` is at
or before the expiration time — the inverted comparison is preserved. -/
theorem feed_expiration_semantics (b : BitassetData) (now : Nat) :
    b.feed_expiration_time =
      (b.current_feed_publication_time + b.options.feed_lifetime_sec) % 2 ^ 32 ∧
    (b.feed_is_expired now = true ↔ b.feed_expiration_time ≤ now) ∧
    (b.feed_is_expired_before_hardfork_615 now = true ↔
      now ≤ b.feed_expiration_time) := by
  refine ⟨rfl, ?_, ?_⟩
  · simp [BitassetData.feed_is_expired]
  · simp [BitassetData.feed_is_expired_before_hardfork_615]

/-- Claim C8: `has_settlement()` is true iff `settlement_price` is
non-null, and an asset is market-issued iff its `bitasset_data_id`
reference is present. -/
theorem has_settlement_iff_nonnull (b : BitassetData) (a : AssetObject) :
    (b.has_settlement = true ↔ b.settlement_price ≠ Price.null) ∧
    (a.is_market_issued = true ↔ a.bitasset_data_id ≠ none) := by
  constructor
  · simp [BitassetData.has_settlement, Price.is_null]
  · simp [AssetObject.is_market_issued, Option.isSome_iff_ne_none]

/-- `validate()` either succeeds or signals `InvalidAssetOptions`; no other
outcome exists. -/
theorem validate_cases (a : AssetObject) :
    a.validate = .ok () ∨ a.validate = .error .InvalidAssetOptions := by
  unfold AssetObject.validate
  split
  · split
    · simp
    · split
      · simp
      · simp
  · simp

/-- Claim C5: for a non-market-issued asset, `validate()` succeeds iff the
`disable_force_settle` and `global_settle` bits are clear in both
`options.flags` and `options.issuer_permissions`, and signals
`InvalidAssetOptions` whenever any of the four bits is set; for a
market-issued asset `validate()` imposes no such condition. -/
theorem validate_uia_bits (a : AssetObject) :
    (a.bitasset_data_id = none →
      ((a.validate = .ok () ↔
        (a.options.flags &&& disable_force_settle = 0 ∧
         a.options.flags &&& global_settle = 0 ∧
         a.options.issuer_permissions &&& disable_force_settle = 0 ∧
         a.options.issuer_permissions &&& global_settle = 0)) ∧
       (¬(a.options.flags &&& disable_force_settle = 0 ∧
          a.options.flags &&& global_settle = 0 ∧
          a.options.issuer_permissions &&& disable_force_settle = 0 ∧
          a.options.issuer_permissions &&& global_settle = 0) →
        a.validate = .error .InvalidAssetOptions))) ∧
    (a.bitasset_data_id.isSome = true → a.validate = .ok ()) := by
  constructor
  · intro hnone
    have hmi : a.is_market_issued = false := by
      simp [AssetObject.is_market_issued, hnone]
    have hiff : a.validate = .ok () ↔
        (a.options.flags &&& disable_force_settle = 0 ∧
         a.options.flags &&& global_settle = 0 ∧
         a.options.issuer_permissions &&& disable_force_settle = 0 ∧
         a.options.issuer_permissions &&& global_settle = 0) := by
      unfold AssetObject.validate
      rw [hmi]
      simp only [Bool.not_false, if_true]
      by_cases h1 : a.options.flags &&& disable_force_settle = 0 <;>
      by_cases h2 : a.options.flags &&& global_settle = 0 <;>
      by_cases h3 : a.options.issuer_permissions &&& disable_force_settle = 0 <;>
      by_cases h4 : a.options.issuer_permissions &&& global_settle = 0 <;>
      simp [h1, h2, h3, h4]
    refine ⟨hiff, ?_⟩
    intro hbad
    rcases validate_cases a with hok | herr
    · exact absurd (hiff.mp hok) hbad
    · exact herr
  · intro hsome
    have hmi : a.is_market_issued = true := hsome
    unfold AssetObject.validate
    rw [hmi]
    simp

/-- Witness for claim C5: the concrete non-market-issued asset whose
`flags` have the `disable_force_settle` bit set fails `validate()` with
`InvalidAssetOptions`. -/
theorem validate_uia_bits_witness :
    uiaBadFlags.validate = .error .InvalidAssetOptions :=
  ((validate_uia_bits uiaBadFlags).1 rfl).2 (by decide)

/-- Claim C10: the `asset`-typed overloads of `amount_to_string` and
`amount_to_pretty_string` require `amount.asset_id == id`: on a matching
id they return exactly what the `share_type` overload returns on
`amount.amount`, and on a mismatched id the assertion branch is taken and
no string is produced. -/
theorem amount_overloads_check_id (ao : AssetObject) (a : Asset) :
    (a.asset_id = ao.id →
      ao.amount_to_string_of_asset a = .ok (ao.amount_to_string a.amount) ∧
      ao.amount_to_pretty_string_of_asset a =
        .ok (ao.amount_to_pretty_string a.amount)) ∧
    (a.asset_id ≠ ao.id →
      ao.amount_to_string_of_asset a = .error .AssetIdMismatch ∧
      ao.amount_to_pretty_string_of_asset a = .error .AssetIdMismatch) := by
  constructor
  · intro h
    constructor
    · simp [AssetObject.amount_to_string_of_asset, h]
    · simp [AssetObject.amount_to_pretty_string_of_asset, h]
  · intro h
    constructor
    · simp [AssetObject.amount_to_string_of_asset, h]
    · simp [AssetObject.amount_to_pretty_string_of_asset, h]

/-- Witness for claim C10: on the concrete asset `uiaBadFlags` (id 7), an
`asset` value tagged with id 7 formats via the `share_type` overload, and
one tagged with id 8 takes the assertion branch. -/
theorem amount_overloads_check_id_witness :
    uiaBadFlags.amount_to_string_of_asset ⟨12345, 7⟩ =
      .ok (uiaBadFlags.amount_to_string 12345) ∧
    uiaBadFlags.amount_to_string_of_asset ⟨12345, 8⟩ =
      .error .AssetIdMismatch :=
  ⟨((amount_overloads_check_id uiaBadFlags ⟨12345, 7⟩).1 rfl).1,
   ((amount_overloads_check_id uiaBadFlags ⟨12345, 8⟩).2 (by decide)).1⟩

/-- Counterexample to claim C4: `can_force_settle()` inspects only the
`disable_force_settle` flag bit, not `is_prediction_market`. The concrete
asset `pmAsset` references bitasset data with `is_prediction_market` set,
yet `can_force_settle()` returns true because its `flags` are clear — the
claim says it would return false for every such asset. -/
theorem can_force_settle_prediction_market_cex :
    pmAsset.bitasset_data_id = some pmBitasset.id ∧
    pmBitasset.is_prediction_market = true ∧
    pmAsset.can_force_settle = true := by
  refine ⟨rfl, rfl, ?_⟩
  decide

/-- Claim C4 (amended): `can_force_settle()` does not consult
`is_prediction_market`; it returns false exactly when the
`disable_force_settle` bit is set in `options.flags`. Consequently a
prediction-market asset is refused ordinary force settlement by
`can_force_settle()` only when its flags carry `disable_force_settle`. -/
theorem can_force_settle_flag_only (a : AssetObject) (b : BitassetData) :
    (a.can_force_settle = false ↔ a.options.flags &&& disable_force_settle ≠ 0) ∧
    (b.is_prediction_market = true →
      a.options.flags &&& disable_force_settle ≠ 0 →
      a.can_force_settle = false) := by
  constructor
  · simp [AssetObject.can_force_settle]
  · intro _ h
    simp [AssetObject.can_force_settle, h]

/-- Witness for the amended claim C4: the concrete asset `uiaBadFlags`
carries the `disable_force_settle` flag, so with the prediction-market
bitasset `pmBitasset` the amended statement yields
`can_force_settle = false`. -/
theorem can_force_settle_flag_only_witness :
    uiaBadFlags.can_force_settle = false :=
  (can_force_settle_flag_only uiaBadFlags pmBitasset).2 rfl (by decide)

/-! ## Median aggregation (C1) -/

/-- The lower median of a non-empty list satisfies the sorted-position
characterisation. -/
theorem medianLow_isLowerMedian (l : List Nat) (h : l ≠ []) :
    isLowerMedian l (medianLow l) := by
  refine ⟨List.insertionSort (· ≤ ·) l, List.sorted_insertionSort _ l,
    List.perm_insertionSort _ l, ?_⟩
  have hlen : (List.insertionSort (· ≤ ·) l).length = l.length :=
    (List.perm_insertionSort _ l).length_eq
  have hpos : 0 < l.length := List.length_pos.mpr h
  have hidx : (l.length - 1) / 2 < (List.insertionSort (· ≤ ·) l).length := by
    rw [hlen]; omega
  rw [List.get?_eq_get hidx]
  unfold medianLow
  rw [List.getD_eq_getElem?_getD, List.getElem?_eq_getElem hidx]
  rfl

/-- For a non-empty list, `min?.getD` is a member and a lower bound. -/
theorem min?_getD_mem_le (l : List Nat) (d : Nat) (h : l ≠ []) :
    l.min?.getD d ∈ l ∧ ∀ x ∈ l, l.min?.getD d ≤ x := by
  obtain ⟨a, ha⟩ : ∃ a, l.min? = some a := by
    cases l with
    | nil => exact absurd rfl h
    | cons x xs => exact ⟨_, rfl⟩
  have hmem : a ∈ l := List.min?_mem (fun a b => by omega) ha
  have hle : ∀ x ∈ l, a ≤ x := by
    intro x hx
    exact (List.le_min?_iff (fun a b c => le_min_iff) ha).mp (le_refl a) x hx
  simp only [ha, Option.getD_some]
  exact ⟨hmem, hle⟩

/-- Claim C1: `update_median_feeds(now)` computes `current_feed` as the
coordinate-wise lower median of the observations from the authorized,
non-stale feeds, and sets `current_feed_publication_time` to the minimum
publication timestamp among the included feeds; in particular feeds
A:10, B:20, C:30 yield 20, feeds A:10, B:20 yield 10 (lower of the two
middle values), and the publication time becomes the oldest included
timestamp. -/
theorem update_median_feeds_median (b : BitassetData) (authorized : List Nat)
    (now : Nat) (h : includedFeeds authorized now b ≠ []) :
    (isLowerMedian
       ((includedFeeds authorized now b).map (fun f => f.2.2.settlement_price))
       (b.update_median_feeds authorized now).current_feed.settlement_price ∧
     isLowerMedian
       ((includedFeeds authorized now b).map (fun f => f.2.2.maintenance_collateral))
       (b.update_median_feeds authorized now).current_feed.maintenance_collateral ∧
     isLowerMedian
       ((includedFeeds authorized now b).map (fun f => f.2.2.core_exchange_rate))
       (b.update_median_feeds authorized now).current_feed.core_exchange_rate) ∧
    ((b.update_median_feeds authorized now).current_feed_publication_time ∈
       (includedFeeds authorized now b).map (fun f => f.2.1) ∧
     ∀ t ∈ (includedFeeds authorized now b).map (fun f => f.2.1),
       (b.update_median_feeds authorized now).current_feed_publication_time ≤ t) ∧
    ((exampleBitasset3.update_median_feeds [1, 2, 3] 50).current_feed =
       uniformFeed 20 ∧
     (exampleBitasset2.update_median_feeds [1, 2] 50).current_feed =
       uniformFeed 10 ∧
     (exampleBitasset3.update_median_feeds [1, 2, 3] 50).current_feed_publication_time = 10 ∧
     (exampleBitasset2.update_median_feeds [1, 2] 50).current_feed_publication_time = 10) := by
  have hne : (includedFeeds authorized now b).isEmpty = false := by
    cases hinc : includedFeeds authorized now b with
    | nil => exact absurd hinc h
    | cons x xs => rfl
  have hmapne : ∀ (g : Nat × (Nat × PriceFeed) → Nat),
      (includedFeeds authorized now b).map g ≠ [] := by
    intro g hm
    exact h (List.map_eq_nil_iff.mp hm)
  refine ⟨⟨?_, ?_, ?_⟩, ⟨?_, ?_⟩, by decide, by decide, by decide, by decide⟩
  · simp only [BitassetData.update_median_feeds, hne, Bool.false_eq_true,
      if_false]
    exact medianLow_isLowerMedian _ (hmapne _)
  · simp only [BitassetData.update_median_feeds, hne, Bool.false_eq_true,
      if_false]
    exact medianLow_isLowerMedian _ (hmapne _)
  · simp only [BitassetData.update_median_feeds, hne, Bool.false_eq_true,
      if_false]
    exact medianLow_isLowerMedian _ (hmapne _)
  · simp only [BitassetData.update_median_feeds, hne, Bool.false_eq_true,
      if_false]
    exact (min?_getD_mem_le _ now (hmapne _)).1
  · simp only [BitassetData.update_median_feeds, hne, Bool.false_eq_true,
      if_false]
    exact (min?_getD_mem_le _ now (hmapne _)).2

/-- Witness for claim C1: the three-feed example has a non-empty included
set, and the theorem yields the median 20 at the concrete input. -/
theorem update_median_feeds_median_witness :
    (exampleBitasset3.update_median_feeds [1, 2, 3] 50).current_feed =
      uniformFeed 20 :=
  (update_median_feeds_median exampleBitasset3 [1, 2, 3] 50 (by decide)).2.2.1

/-! ## Settlement state machine (C2) and throttle (C6) -/

/-- Claim C2: global settlement is one-way and freezing. In a settled
state every `publish_feed` and every `recompute` is rejected with
`AlreadySettled` — so `settlement_price` and `settlement_fund` are
untouched by feed operations — and every operation that does succeed
keeps `settlement_price` intact and the state settled: nothing returns
the asset to the Active state. -/
theorem settlement_one_way (b : BitassetData) (op : BitassetOp)
    (h : b.has_settlement = true) :
    (∀ pub now f, applyBitassetOp b (.publish_feed pub now f) =
      .error .AlreadySettled) ∧
    (∀ authorized now, applyBitassetOp b (.recompute authorized now) =
      .error .AlreadySettled) ∧
    (∀ b', applyBitassetOp b op = .ok b' →
      b'.settlement_price = b.settlement_price ∧ b'.has_settlement = true) := by
  refine ⟨?_, ?_, ?_⟩
  · intro pub now f
    simp [applyBitassetOp, h]
  · intro authorized now
    simp [applyBitassetOp, h]
  · intro b' hok
    cases op with
    | publish_feed pub now f => simp [applyBitassetOp, h] at hok
    | recompute authorized now => simp [applyBitassetOp, h] at hok
    | do_global_settle p fund => simp [applyBitassetOp, h] at hok
    | force_settle x s =>
      by_cases hf : b.settlement_fund < x
      · simp [applyBitassetOp, h, hf] at hok
      · simp only [applyBitassetOp, h, if_true, hf, if_false,
          Except.ok.injEq] at hok
        rw [← hok]
        refine ⟨rfl, ?_⟩
        simpa [BitassetData.has_settlement] using h
    | reset_force_settled_volume =>
      simp only [applyBitassetOp, Except.ok.injEq] at hok
      rw [← hok]
      refine ⟨rfl, ?_⟩
      simpa [BitassetData.has_settlement] using h

/-- Witness for claim C2: on the concrete settled bitasset, a feed
publication is rejected with `AlreadySettled`. -/
theorem settlement_one_way_witness :
    applyBitassetOp settledBitasset (.publish_feed 1 60 (uniformFeed 15)) =
      .error .AlreadySettled :=
  (settlement_one_way settledBitasset .reset_force_settled_volume
    (by decide)).1 1 60 (uniformFeed 15)

/-- Claim C6: `max_force_settlement_volume(current_supply)` applies the
configured maximum settlement percentage to the supply as a fixed-point
percentage of `GRAPHENE_100_PERCENT = 10000`, rounded down; a request
that would push `force_settled_volume` above the cap is rejected whole
with `ExceedsSettlementBudget` (no state is produced, so the volume is
unchanged), and a request within the cap adds its volume. With supply
1000000 and a 10 percent cap the cap is 100000: a request for 150000
fails and one for 100000 brings the volume to 100000. -/
theorem force_settle_throttle (b : BitassetData) (current_supply x : Int)
    (h : b.has_settlement = false) :
    b.max_force_settlement_volume current_supply =
      current_supply * (b.options.maximum_force_settlement_volume : Int) / 10000 ∧
    (b.max_force_settlement_volume current_supply <
        b.force_settled_volume + x →
      applyBitassetOp b (.force_settle x current_supply) =
        .error .ExceedsSettlementBudget) ∧
    (b.force_settled_volume + x ≤
        b.max_force_settlement_volume current_supply →
      applyBitassetOp b (.force_settle x current_supply) =
        .ok { b with force_settled_volume := b.force_settled_volume + x }) ∧
    (exampleBitasset3.max_force_settlement_volume 1000000 = 100000 ∧
     applyBitassetOp exampleBitasset3 (.force_settle 150000 1000000) =
       .error .ExceedsSettlementBudget ∧
     applyBitassetOp exampleBitasset3 (.force_settle 100000 1000000) =
       .ok { exampleBitasset3 with force_settled_volume := 100000 }) := by
  refine ⟨rfl, ?_, ?_, by decide, by rfl, by rfl⟩
  · intro hover
    simp [applyBitassetOp, h, hover]
  · intro hunder
    simp [applyBitassetOp, h, not_lt.mpr hunder]

/-- Witness for claim C6: the concrete over-cap request fails with
`ExceedsSettlementBudget`. -/
theorem force_settle_throttle_witness :
    applyBitassetOp exampleBitasset3 (.force_settle 150000 1000000) =
      .error .ExceedsSettlementBudget :=
  (force_settle_throttle exampleBitasset3 1000000 150000 (by decide)).2.1
    (by decide)

/-! ## Symbol uniqueness at insertion (C9) -/

/-- Claim C9: for a valid symbol, insertion into a store not already
holding that symbol succeeds exactly once: the first insertion appends
the record, and any second insertion with the same symbol fails with
`DuplicateSymbol` (the failing call produces no store, leaving it
unchanged); `is_valid_symbol` accepts the valid ticker "USD". -/
theorem symbol_unique_insert (store : List AssetObject) (a b : AssetObject)
    (_hv : is_valid_symbol a.symbol = true)
    (hfresh : ∀ c ∈ store, c.symbol ≠ a.symbol) :
    insertAsset store a = .ok (store ++ [a]) ∧
    (b.symbol = a.symbol →
      insertAsset (store ++ [a]) b = .error .DuplicateSymbol) ∧
    is_valid_symbol ['U', 'S', 'D'] = true := by
  refine ⟨?_, ?_, by decide⟩
  · have hany : store.any (fun c => decide (c.symbol = a.symbol)) = false := by
      rw [List.any_eq_false]
      intro c hc
      simpa using hfresh c hc
    simp [insertAsset, hany]
  · intro hb
    have hany : (store ++ [a]).any (fun c => decide (c.symbol = b.symbol)) = true := by
      rw [List.any_eq_true]
      exact ⟨a, by simp [hb]⟩
    simp [insertAsset, hany]

/-- Witness for claim C9: inserting the concrete asset `uiaBadFlags`
(symbol "UIA", a valid ticker) into the empty store succeeds, and
re-inserting the same symbol fails with `DuplicateSymbol`. -/
theorem symbol_unique_insert_witness :
    insertAsset [] uiaBadFlags = .ok [uiaBadFlags] ∧
    insertAsset [uiaBadFlags] uiaBadFlags = .error .DuplicateSymbol :=
  ⟨(symbol_unique_insert [] uiaBadFlags uiaBadFlags (by decide)
      (fun c hc => absurd hc (List.not_mem_nil c))).1,
   (symbol_unique_insert [] uiaBadFlags uiaBadFlags (by decide)
      (fun c hc => absurd hc (List.not_mem_nil c))).2.1 rfl⟩

/-! ## Decimal round trip (C7) -/

/-- `charVal` inverts `digitChar` on single digits. -/
theorem charVal_digitChar {d : Nat} (h : d < 10) :
    charVal (digitChar d) = d := by
  interval_cases d <;> rfl

/-- The character of a single digit is a digit character. -/
theorem isDigit_digitChar {d : Nat} (h : d < 10) :
    (digitChar d).isDigit = true := by
  interval_cases d <;> decide

/-- Every character of a decimal rendering is a digit. -/
theorem natChars_all_digits (n : Nat) :
    (natChars n).all Char.isDigit = true := by
  unfold natChars
  split
  · decide
  · rw [List.all_eq_true]
    intro c hc
    rw [List.mem_map] at hc
    obtain ⟨d, hd, rfl⟩ := hc
    rw [List.mem_reverse] at hd
    exact isDigit_digitChar (Nat.digits_lt_base (by norm_num) hd)

/-- A decimal rendering is never empty. -/
theorem natChars_ne_nil (n : Nat) : natChars n ≠ [] := by
  unfold natChars
  split
  · simp
  · next h =>
    simp only [ne_eq, List.map_eq_nil_iff, List.reverse_eq_nil_iff]
    exact Nat.digits_ne_nil_iff_ne_zero.mpr h

/-- Members of a decimal rendering are digit characters. -/
theorem isDigit_of_mem_natChars {c : Char} {n : Nat} (h : c ∈ natChars n) :
    c.isDigit = true := by
  have hall := natChars_all_digits n
  rw [List.all_eq_true] at hall
  exact hall c h

/-- A digit character is not the minus sign. -/
theorem ne_dash_of_isDigit {c : Char} (h : c.isDigit = true) : c ≠ '-' := by
  intro he
  rw [he] at h
  exact absurd h (by decide)

/-- A digit character is not the decimal point. -/
theorem ne_dot_of_isDigit {c : Char} (h : c.isDigit = true) : c ≠ '.' := by
  intro he
  rw [he] at h
  exact absurd h (by decide)

/-- The decimal point never occurs in a decimal rendering. -/
theorem dot_not_mem_natChars (n : Nat) : '.' ∉ natChars n := fun h =>
  ne_dot_of_isDigit (isDigit_of_mem_natChars h) rfl

/-- Horner evaluation of the reversed digit list recovers `ofDigits`. -/
theorem foldl_rev_digits (L : List Nat) (hL : ∀ d ∈ L, d < 10) (a : Nat) :
    (L.reverse.map digitChar).foldl (fun x c => x * 10 + charVal c) a =
      a * 10 ^ L.length + Nat.ofDigits 10 L := by
  induction L generalizing a with
  | nil => simp [Nat.ofDigits]
  | cons d L ih =>
    rw [List.reverse_cons, List.map_append, List.foldl_append]
    have hd : d < 10 := hL d (List.mem_cons_self d L)
    have hL' : ∀ e ∈ L, e < 10 := fun e he => hL e (List.mem_cons_of_mem d he)
    rw [ih hL']
    simp only [List.map_cons, List.map_nil, List.foldl_cons, List.foldl_nil]
    rw [charVal_digitChar hd, Nat.ofDigits_cons, List.length_cons, pow_succ]
    ring

/-- Parsing a decimal rendering recovers the number. -/
theorem parseNat_natChars (n : Nat) : parseNat (natChars n) = some n := by
  unfold parseNat
  rw [if_pos ⟨natChars_ne_nil n, natChars_all_digits n⟩]
  congr 1
  by_cases h : n = 0
  · subst h
    decide
  · unfold natChars
    rw [if_neg h]
    rw [foldl_rev_digits _ (fun d hd => Nat.digits_lt_base (by norm_num) hd) 0]
    simp [Nat.ofDigits_digits]

/-- Leading zeros do not change the Horner evaluation. -/
theorem foldl_replicate_zero (k : Nat) :
    (List.replicate k '0').foldl (fun x c => x * 10 + charVal c) 0 = 0 := by
  induction k with
  | zero => rfl
  | succ k ih =>
    rw [List.replicate_succ, List.foldl_cons]
    simpa [charVal] using ih

/-- Left-padding a parsable digit run with zeros preserves its value. -/
theorem parseNat_padZeros (p : Nat) (cs : List Char) (r : Nat)
    (h : parseNat cs = some r) : parseNat (padZeros p cs) = some r := by
  unfold parseNat at h ⊢
  by_cases hc : cs ≠ [] ∧ cs.all Char.isDigit = true
  · rw [if_pos hc] at h
    have hrep : (List.replicate (p - cs.length) '0').all Char.isDigit = true := by
      rw [List.all_eq_true]
      intro c hmem
      rw [List.mem_replicate] at hmem
      rw [hmem.2]
      decide
    have hcond : padZeros p cs ≠ [] ∧ (padZeros p cs).all Char.isDigit = true := by
      constructor
      · unfold padZeros
        intro he
        exact hc.1 (List.append_eq_nil.mp he).2
      · unfold padZeros
        rw [List.all_append, hrep, hc.2]
        rfl
    rw [if_pos hcond]
    unfold padZeros
    rw [List.foldl_append, foldl_replicate_zero]
    exact h
  · rw [if_neg hc] at h
    cases h

/-- Padding a short digit run reaches exactly the target length. -/
theorem padZeros_length (p : Nat) (cs : List Char) (h : cs.length ≤ p) :
    (padZeros p cs).length = p := by
  unfold padZeros
  rw [List.length_append, List.length_replicate]
  omega

/-- A number below `10 ^ p` has at most `p` decimal digits. -/
theorem digits_length_le_of_lt_pow {n p : Nat} (hn : n < 10 ^ p) :
    (Nat.digits 10 n).length ≤ p := by
  by_cases h0 : n = 0
  · subst h0
    simp
  · by_contra hgt
    push_neg at hgt
    have h1 : 10 ^ (Nat.digits 10 n).length ≤ 10 * n :=
      Nat.base_pow_length_digits_le 10 n (by norm_num) h0
    have h2 : 10 ^ (p + 1) ≤ 10 ^ (Nat.digits 10 n).length :=
      Nat.pow_le_pow_right (by norm_num) hgt
    have h3 : 10 * 10 ^ p ≤ 10 * n := by
      calc 10 * 10 ^ p = 10 ^ (p + 1) := by ring
      _ ≤ 10 ^ (Nat.digits 10 n).length := h2
      _ ≤ 10 * n := h1
    have h4 := Nat.le_of_mul_le_mul_left h3 (by norm_num)
    omega

/-- The rendering of a number below `10 ^ p` (with `p` positive) is at
most `p` characters long. -/
theorem natChars_length_le {n p : Nat} (hn : n < 10 ^ p) (hp : 0 < p) :
    (natChars n).length ≤ p := by
  unfold natChars
  split
  · simpa using hp
  · rw [List.length_map, List.length_reverse]
    exact digits_length_le_of_lt_pow hn

/-- A dot-free run splits into itself with no fractional part. -/
theorem splitDot_no_dot (cs : List Char) (h : '.' ∉ cs) :
    splitDot cs = (cs, none) := by
  induction cs with
  | nil => rfl
  | cons c t ih =>
    have hc : ¬c = '.' := fun he => h (he ▸ List.mem_cons_self c t)
    have ht : '.' ∉ t := fun hm => h (List.mem_cons_of_mem c hm)
    simp only [splitDot, if_neg hc, ih ht]

/-- A run with one dot after a dot-free integer part splits at that dot. -/
theorem splitDot_append_dot (xs ys : List Char) (h : '.' ∉ xs) :
    splitDot (xs ++ '.' :: ys) = (xs, some ys) := by
  induction xs with
  | nil => simp [splitDot]
  | cons c t ih =>
    have hc : ¬c = '.' := fun he => h (he ▸ List.mem_cons_self c t)
    have ht : '.' ∉ t := fun hm => h (List.mem_cons_of_mem c hm)
    simp only [List.cons_append, splitDot, if_neg hc, List.append_eq, ih ht]

/-- A decimal rendering does not start with a minus sign, so `stripSign`
leaves it alone. -/
theorem stripSign_natChars (n : Nat) :
    stripSign (natChars n) = (false, natChars n) := by
  obtain ⟨c, t, hct⟩ : ∃ c t, natChars n = c :: t := by
    cases hnc : natChars n with
    | nil => exact absurd hnc (natChars_ne_nil n)
    | cons c t => exact ⟨c, t, rfl⟩
  have hcd : ¬c = '-' :=
    ne_dash_of_isDigit (isDigit_of_mem_natChars (hct ▸ List.mem_cons_self c t))
  rw [hct]
  simp [stripSign, hcd]

/-- `stripSign` also leaves a rendering followed by a fractional part
alone. -/
theorem stripSign_natChars_append (n : Nat) (ys : List Char) :
    stripSign (natChars n ++ ys) = (false, natChars n ++ ys) := by
  obtain ⟨c, t, hct⟩ : ∃ c t, natChars n = c :: t := by
    cases hnc : natChars n with
    | nil => exact absurd hnc (natChars_ne_nil n)
    | cons c t => exact ⟨c, t, rfl⟩
  have hcd : ¬c = '-' :=
    ne_dash_of_isDigit (isDigit_of_mem_natChars (hct ▸ List.mem_cons_self c t))
  rw [hct]
  simp [stripSign, hcd]

/-- Claim C7: for every asset and every satoshi amount,
`amount_from_string(amount_to_string(x))` recovers `x`; the parser
accepts an optional leading minus sign and a single optional decimal
point with at most `precision` fractional digits and signals
`InvalidAmountFormat` on malformed input (no digits, a stray letter, or
too many fractional digits); at precision 2, 12345 renders as "123.45"
and parses back. -/
theorem amount_string_roundtrip (a : AssetObject) (x : Int) :
    a.amount_from_string (a.amount_to_string x) = .ok x ∧
    (usd2.amount_to_string 12345 = ['1', '2', '3', '.', '4', '5'] ∧
     usd2.amount_from_string ['1', '2', '3', '.', '4', '5'] = .ok 12345 ∧
     usd2.amount_from_string ['1', '2', 'x'] = .error .InvalidAmountFormat ∧
     usd2.amount_from_string ['1', '.', '2', '3', '4'] =
       .error .InvalidAmountFormat ∧
     usd2.amount_from_string [] = .error .InvalidAmountFormat) := by
  refine ⟨?_, ?_, by rfl, by rfl, by rfl, by rfl⟩
  · by_cases hp0 : a.precision = 0
    · have hfmt : a.amount_to_string x =
          (if x < 0 then ['-'] else []) ++ natChars x.natAbs := by
        simp only [AssetObject.amount_to_string]
        rw [if_pos hp0]
      have hsp : splitDot (natChars x.natAbs) = (natChars x.natAbs, none) :=
        splitDot_no_dot _ (dot_not_mem_natChars _)
      by_cases hx : x < 0
      · rw [hfmt, if_pos hx, List.singleton_append]
        have hstrip : stripSign ('-' :: natChars x.natAbs) =
            (true, natChars x.natAbs) := by
          simp [stripSign]
        unfold AssetObject.amount_from_string
        simp only [hstrip, hsp, parseNat_natChars]
        simp only [applySign, Bool.cond_true, hp0, pow_zero, mul_one,
          Except.ok.injEq]
        omega
      · rw [hfmt, if_neg hx, List.nil_append]
        unfold AssetObject.amount_from_string
        simp only [stripSign_natChars, hsp, parseNat_natChars]
        simp only [applySign, Bool.cond_false, hp0, pow_zero, mul_one,
          Except.ok.injEq]
        omega
    · have hppos : 0 < a.precision := Nat.pos_of_ne_zero hp0
      have hrlt : x.natAbs % 10 ^ a.precision < 10 ^ a.precision :=
        Nat.mod_lt _ (pow_pos (by norm_num) _)
      have hlen :
          (padZeros a.precision (natChars (x.natAbs % 10 ^ a.precision))).length =
            a.precision :=
        padZeros_length _ _ (natChars_length_le hrlt hppos)
      have hfmt : a.amount_to_string x =
          (if x < 0 then ['-'] else []) ++
            (natChars (x.natAbs / 10 ^ a.precision) ++ '.' ::
              padZeros a.precision (natChars (x.natAbs % 10 ^ a.precision))) := by
        simp only [AssetObject.amount_to_string]
        rw [if_neg hp0, List.append_assoc]
      have hsp :
          splitDot (natChars (x.natAbs / 10 ^ a.precision) ++ '.' ::
              padZeros a.precision (natChars (x.natAbs % 10 ^ a.precision))) =
            (natChars (x.natAbs / 10 ^ a.precision),
             some (padZeros a.precision (natChars (x.natAbs % 10 ^ a.precision)))) :=
        splitDot_append_dot _ _ (dot_not_mem_natChars _)
      have hparse_r :
          parseNat (padZeros a.precision (natChars (x.natAbs % 10 ^ a.precision))) =
            some (x.natAbs % 10 ^ a.precision) :=
        parseNat_padZeros _ _ _ (parseNat_natChars _)
      have hkey : x.natAbs / 10 ^ a.precision * 10 ^ a.precision +
          x.natAbs % 10 ^ a.precision = x.natAbs := Nat.div_add_mod' _ _
      by_cases hx : x < 0
      · rw [hfmt, if_pos hx, List.singleton_append]
        have hstrip : stripSign ('-' :: (natChars (x.natAbs / 10 ^ a.precision) ++
            '.' :: padZeros a.precision (natChars (x.natAbs % 10 ^ a.precision)))) =
            (true, natChars (x.natAbs / 10 ^ a.precision) ++ '.' ::
              padZeros a.precision (natChars (x.natAbs % 10 ^ a.precision))) := by
          simp [stripSign]
        unfold AssetObject.amount_from_string
        simp only [hstrip, hsp, hlen, le_refl, if_true, parseNat_natChars,
          hparse_r]
        simp only [applySign, Bool.cond_true, Nat.sub_self, pow_zero, mul_one,
          hkey, Except.ok.injEq]
        omega
      · rw [hfmt, if_neg hx, List.nil_append]
        unfold AssetObject.amount_from_string
        simp only [stripSign_natChars_append, hsp, hlen, le_refl, if_true,
          parseNat_natChars, hparse_r]
        simp only [applySign, Bool.cond_false, Nat.sub_self, pow_zero, mul_one,
          hkey, Except.ok.injEq]
        omega
  · have h1 : Nat.digits 10 123 = [3, 2, 1] := by norm_num [Nat.digits_def']
    have h2 : Nat.digits 10 45 = [5, 4] := by norm_num [Nat.digits_def']
    have h3 : ((12345 : Int).natAbs : Nat) = 12345 := rfl
    simp only [AssetObject.amount_to_string, usd2, h3]
    norm_num [natChars, padZeros, h1, h2]
    decide

end AssetModel
